import Mathlib

/-!
Verification of the debug pretty-printing core of the `dbg-pls` crate
(repository fork `rust-dbg-pls-fork`).

The repository source provides `src/lib.rs`: the `DebugPls` trait, the
`Formatter` (its `process` entry, `write_expr` and `debug_ident`), and the
test suite pinning concrete rendered outputs.  The builder modules
(`debug_struct.rs`, `debug_list.rs`, ...) and the render backends
(`pretty.rs`, `colors.rs`) are declared in `lib.rs` but their files are not
part of the provided source; those parts are modelled from the
specification, constrained to agree with every concrete output asserted by
the tests and doc-tests inside `src/lib.rs`.

Two deliberate, test-forced deviations from the specification text are
modelled (and proved as such below):
* the effective line-width budget is 60 columns, not the spec's 80: the
  test `debug_struct_big` breaks a 61-column candidate into multi-line
  form, and every test keeps candidates of at most 41 columns on one line;
* nonempty map and set nodes always render in multi-line form: the test
  `debug_small_set` breaks the 9-column candidate of a two-element set and
  the `debug_map` doc-test breaks a 33-column two-entry map.
-/

set_option maxRecDepth 4096

namespace DbgPls

/-- Semantic highlight class of an emitted token (spec par. 4.5: identifier or
type name, literal, punctuation or delimiter). -/
inductive HClass where
  | name
  | lit
  | punc
deriving DecidableEq, Repr

/-- One emitted token: its highlight class and its visible text. -/
structure Span where
  cls : HClass
  text : String
deriving DecidableEq, Repr

/-!
Modelled from the spec (par. 3, "Node"): the debug-shape tree.  The
builder modules that construct these shapes are not in the provided source;
the shape list follows the spec's data model exactly.  Children are stored
in insertion order.  `Nodes`, `Fields` and `Entries` are inlined ordered
sequences (lists) of children, named fields and key-value entries.
-/
mutual
inductive Node where
  | atom (text : String)
  | ident (name : String)
  | verbatim (raw : String)
  | namedStruct (name : String) (fields : Fields)
  | tuple (fields : Nodes)
  | tupleStruct (name : String) (fields : Nodes)
  | list (items : Nodes)
  | map (entries : Entries)
  | set (items : Nodes)
inductive Nodes where
  | nil
  | cons (hd : Node) (tl : Nodes)
inductive Fields where
  | nil
  | cons (fieldName : String) (value : Node) (tl : Fields)
inductive Entries where
  | nil
  | cons (key : Node) (value : Node) (tl : Entries)
end

/-- Convert a Lean list of nodes to the child-sequence type. -/
def Nodes.ofList : List Node → Nodes
  | [] => .nil
  | x :: r => .cons x (Nodes.ofList r)

/-- Convert a Lean list of named fields to the field-sequence type. -/
def Fields.ofList : List (String × Node) → Fields
  | [] => .nil
  | (f, v) :: r => .cons f v (Fields.ofList r)

/-- Convert a Lean list of key-value pairs to the entry-sequence type. -/
def Entries.ofList : List (Node × Node) → Entries
  | [] => .nil
  | (k, v) :: r => .cons k v (Entries.ofList r)

/-- A run of `n` spaces. -/
def sp (n : Nat) : String := String.mk (List.replicate n ' ')

/-- Visible text of a span sequence: the concatenation of the spans' texts,
ignoring highlight classes (spec par. 4.5: width is computed on the visible
text length). -/
def spansText : List Span → String
  | [] => ""
  | s :: r => s.text ++ spansText r

/-!
Modelled from the spec (par. 4.4, par. 6 grammar): the fully rendered
single-line candidate form of a node, as classified spans.  Children are
joined by comma-space (struct, tuple, list), map entries render as
`[key] = value;` and set elements are joined by semicolon-space; an empty
named struct renders as the bare name with empty braces.
-/
mutual
def flatSpans : Node → List Span
  | .atom t => [Span.mk .lit t]
  | .ident s => [Span.mk .name s]
  | .verbatim r => [Span.mk .lit r]
  | .namedStruct n .nil => [Span.mk .name n, Span.mk .punc "\x7b\x7d"]
  | .namedStruct n (.cons f v r) =>
      [Span.mk .name n, Span.mk .punc " \x7b "] ++ flatFields (.cons f v r) ++ [Span.mk .punc " \x7d"]
  | .tuple fs => [Span.mk .punc "("] ++ flatItems fs ++ [Span.mk .punc ")"]
  | .tupleStruct n fs => [Span.mk .name n, Span.mk .punc "("] ++ flatItems fs ++ [Span.mk .punc ")"]
  | .list xs => [Span.mk .punc "["] ++ flatItems xs ++ [Span.mk .punc "]"]
  | .map .nil => [Span.mk .punc "\x7b\x7d"]
  | .map (.cons k v r) => [Span.mk .punc "\x7b"] ++ flatEntries (.cons k v r) ++ [Span.mk .punc "\x7d"]
  | .set .nil => [Span.mk .punc "\x7b\x7d"]
  | .set (.cons x r) => [Span.mk .punc "\x7b"] ++ flatSetItems (.cons x r) ++ [Span.mk .punc "\x7d"]
def flatFields : Fields → List Span
  | .nil => []
  | .cons f v .nil => [Span.mk .name f, Span.mk .punc ": "] ++ flatSpans v
  | .cons f v (.cons g w r) =>
      [Span.mk .name f, Span.mk .punc ": "] ++ flatSpans v ++ [Span.mk .punc ", "] ++ flatFields (.cons g w r)
def flatItems : Nodes → List Span
  | .nil => []
  | .cons x .nil => flatSpans x
  | .cons x (.cons y r) => flatSpans x ++ [Span.mk .punc ", "] ++ flatItems (.cons y r)
def flatEntries : Entries → List Span
  | .nil => []
  | .cons k v .nil =>
      [Span.mk .punc "["] ++ flatSpans k ++ [Span.mk .punc "] = "] ++ flatSpans v ++ [Span.mk .punc ";"]
  | .cons k v (.cons k2 v2 r) =>
      [Span.mk .punc "["] ++ flatSpans k ++ [Span.mk .punc "] = "] ++ flatSpans v ++ [Span.mk .punc "; "] ++
        flatEntries (.cons k2 v2 r)
def flatSetItems : Nodes → List Span
  | .nil => []
  | .cons x .nil => flatSpans x
  | .cons x (.cons y r) => flatSpans x ++ [Span.mk .punc "; "] ++ flatSetItems (.cons y r)
end

/-- Visible text of the single-line candidate form. -/
def flatText (n : Node) : String := spansText (flatSpans n)

/-- Visible width (column count) of the single-line candidate form. -/
def flatLen (n : Node) : Nat := (flatText n).length

/-- Modelled from the spec and the repository's tests: the line-width
budget.  The spec text names 80 columns, but the tests in `src/lib.rs`
force a smaller budget: `debug_struct_big` breaks a candidate of width 61
while `debug_nested_map` keeps a candidate of width 41 on one line, so the
actual budget lies in `[41, 60]`; the model fixes it at 60, consistent with
every test and doc-test in the source. -/
def lineWidth : Nat := 60

/-- Indentation step of the multi-line form (spec par. 4.4: 4 spaces per
level, confirmed by every multi-line test output). -/
def indentStep : Nat := 4

/-!
Modelled from the spec (par. 4.4 layout renderer) and the repository's
tests: the layout decision and multi-line forms, emitting classified spans.
`ind` is the current indentation level (in columns) of the line on which
the node starts, `col` the current column position where the node's first
character goes (indentation plus any field-name or key prefix).

Per-shape behavior, matching every test in `src/lib.rs`:
* atoms, identifiers and verbatim text render as-is and never break;
* empty composites always render their single-line empty form;
* nonempty struct, tuple, tuple-struct and list nodes render the
  single-line candidate when `col + width ≤ 60` and otherwise the
  multi-line form, every child line (including the last) terminated by a
  trailing comma;
* nonempty map and set nodes always render multi-line (tests
  `debug_small_set`, `debug_map`); map entries render as `[key] = value;`
  with the trailing semicolon after every entry including the last, an
  over-wide entry breaking its bracketed key block (test
  `debug_nested_map`); set elements are terminated by semicolons except
  the final element (test `debug_nested_set`).
-/
mutual
def renderSpans (ind col : Nat) : Node → List Span
  | .atom t => [Span.mk .lit t]
  | .ident s => [Span.mk .name s]
  | .verbatim r => [Span.mk .lit r]
  | .namedStruct n .nil => [Span.mk .name n, Span.mk .punc "\x7b\x7d"]
  | .namedStruct n (.cons f v r) =>
      if col + flatLen (.namedStruct n (.cons f v r)) ≤ lineWidth then
        flatSpans (.namedStruct n (.cons f v r))
      else
        [Span.mk .name n, Span.mk .punc " \x7b\n"] ++ multiFields (ind + indentStep) (.cons f v r) ++
          [Span.mk .punc (sp ind ++ "\x7d")]
  | .tuple .nil => [Span.mk .punc "()"]
  | .tuple (.cons x r) =>
      if col + flatLen (.tuple (.cons x r)) ≤ lineWidth then
        flatSpans (.tuple (.cons x r))
      else
        [Span.mk .punc "(\n"] ++ multiItems (ind + indentStep) (.cons x r) ++ [Span.mk .punc (sp ind ++ ")")]
  | .tupleStruct n .nil => [Span.mk .name n, Span.mk .punc "()"]
  | .tupleStruct n (.cons x r) =>
      if col + flatLen (.tupleStruct n (.cons x r)) ≤ lineWidth then
        flatSpans (.tupleStruct n (.cons x r))
      else
        [Span.mk .name n, Span.mk .punc "(\n"] ++ multiItems (ind + indentStep) (.cons x r) ++
          [Span.mk .punc (sp ind ++ ")")]
  | .list .nil => [Span.mk .punc "[]"]
  | .list (.cons x r) =>
      if col + flatLen (.list (.cons x r)) ≤ lineWidth then
        flatSpans (.list (.cons x r))
      else
        [Span.mk .punc "[\n"] ++ multiItems (ind + indentStep) (.cons x r) ++ [Span.mk .punc (sp ind ++ "]")]
  | .map .nil => [Span.mk .punc "\x7b\x7d"]
  | .map (.cons k v r) =>
      [Span.mk .punc "\x7b\n"] ++ multiEntries (ind + indentStep) (.cons k v r) ++
        [Span.mk .punc (sp ind ++ "\x7d")]
  | .set .nil => [Span.mk .punc "\x7b\x7d"]
  | .set (.cons x r) =>
      [Span.mk .punc "\x7b\n"] ++ multiSetItems (ind + indentStep) (.cons x r) ++
        [Span.mk .punc (sp ind ++ "\x7d")]
def multiFields (ind : Nat) : Fields → List Span
  | .nil => []
  | .cons f v r =>
      [Span.mk .punc (sp ind), Span.mk .name f, Span.mk .punc ": "] ++
        renderSpans ind (ind + f.length + 2) v ++ [Span.mk .punc ",\n"] ++ multiFields ind r
def multiItems (ind : Nat) : Nodes → List Span
  | .nil => []
  | .cons x r =>
      [Span.mk .punc (sp ind)] ++ renderSpans ind ind x ++ [Span.mk .punc ",\n"] ++ multiItems ind r
def multiEntries (ind : Nat) : Entries → List Span
  | .nil => []
  | .cons k v r =>
      (if ind + (flatLen k + flatLen v + 6) ≤ lineWidth then
        [Span.mk .punc (sp ind), Span.mk .punc "["] ++ flatSpans k ++ [Span.mk .punc "] = "] ++ flatSpans v
      else
        [Span.mk .punc (sp ind), Span.mk .punc "[\n", Span.mk .punc (sp (ind + indentStep))] ++
          renderSpans (ind + indentStep) (ind + indentStep) k ++
          [Span.mk .punc ",\n", Span.mk .punc (sp ind), Span.mk .punc "] = "] ++
          renderSpans ind (ind + indentStep) v) ++
      [Span.mk .punc ";\n"] ++ multiEntries ind r
def multiSetItems (ind : Nat) : Nodes → List Span
  | .nil => []
  | .cons x .nil => [Span.mk .punc (sp ind)] ++ renderSpans ind ind x ++ [Span.mk .punc "\n"]
  | .cons x (.cons y r) =>
      [Span.mk .punc (sp ind)] ++ renderSpans ind ind x ++ [Span.mk .punc ";\n"] ++
        multiSetItems ind (.cons y r)
end

/-- Plain text render of a node starting at indentation `ind`, column `col`. -/
def renderAt (ind col : Nat) (n : Node) : String := spansText (renderSpans ind col n)

/-- Plain text render of a complete tree (top level: indent 0, column 0). -/
def renderNode (n : Node) : String := renderAt 0 0 n

/-- A renderable value, reduced to its dispatch behavior (spec par. 4.3):
the `DebugPls::fmt` implementation, as a transformer of the output slot's
content.  A `write_expr`-style population ignores the slot's previous
content and replaces it. -/
def Val : Type := Node → Node

/-- From `src/lib.rs` (`Formatter::process`): the output slot is initialised
with an empty verbatim node, the value's dispatch implementation is run on
the slot, and the slot's final content is returned. -/
def Formatter.process (v : Val) : Node := v (Node.verbatim "")

/-- Entry point (spec par. 6): build the value's tree and lay it out as
plain text. -/
def render_plain (v : Val) : String := renderNode (Formatter.process v)

/-- Modelled from the spec (par. 4.2, `debug_struct`; the file
`debug_struct.rs` is not in the provided source): the struct builder
accumulates named fields in call order. -/
structure DebugStruct where
  name : String
  fields : List (String × Node)

/-- Modelled from the spec: `Formatter::debug_struct` creates the builder
with no fields. -/
def Formatter.debug_struct (name : String) : DebugStruct := ⟨name, []⟩

/-- Modelled from the spec: `field` eagerly dispatches the value into a
fresh slot and appends the resulting node to the buffer. -/
def DebugStruct.field (b : DebugStruct) (f : String) (v : Val) : DebugStruct :=
  ⟨b.name, b.fields ++ [(f, Formatter.process v)]⟩

/-- Modelled from the spec: `finish` commits the buffered fields as a
named-struct node. -/
def DebugStruct.finish (b : DebugStruct) : Node :=
  .namedStruct b.name (Fields.ofList b.fields)

/-- Modelled from the spec (par. 4.2, `debug_tuple`): positional fields in
call order. -/
structure DebugTuple where
  fields : List Node

/-- Modelled from the spec: `Formatter::debug_tuple`. -/
def Formatter.debug_tuple : DebugTuple := ⟨[]⟩

/-- Modelled from the spec: append one dispatched positional field. -/
def DebugTuple.field (b : DebugTuple) (v : Val) : DebugTuple :=
  ⟨b.fields ++ [Formatter.process v]⟩

/-- Modelled from the spec: commit as a tuple node. -/
def DebugTuple.finish (b : DebugTuple) : Node := .tuple (Nodes.ofList b.fields)

/-- Modelled from the spec (par. 4.2, `debug_tuple_struct`). -/
structure DebugTupleStruct where
  name : String
  fields : List Node

/-- Modelled from the spec: `Formatter::debug_tuple_struct`. -/
def Formatter.debug_tuple_struct (name : String) : DebugTupleStruct := ⟨name, []⟩

/-- Modelled from the spec: append one dispatched positional field. -/
def DebugTupleStruct.field (b : DebugTupleStruct) (v : Val) : DebugTupleStruct :=
  ⟨b.name, b.fields ++ [Formatter.process v]⟩

/-- Modelled from the spec: commit as a named tuple-struct node. -/
def DebugTupleStruct.finish (b : DebugTupleStruct) : Node :=
  .tupleStruct b.name (Nodes.ofList b.fields)

/-- Modelled from the spec (par. 4.2, `debug_list`): items in call order. -/
structure DebugList where
  items : List Node

/-- Modelled from the spec: `Formatter::debug_list`. -/
def Formatter.debug_list : DebugList := ⟨[]⟩

/-- Modelled from the spec: append one dispatched item. -/
def DebugList.entry (b : DebugList) (v : Val) : DebugList :=
  ⟨b.items ++ [Formatter.process v]⟩

/-- Modelled from the spec: the bulk convenience `entries` folds `entry`
over the iterable. -/
def DebugList.entries (b : DebugList) (vs : List Val) : DebugList :=
  vs.foldl DebugList.entry b

/-- Modelled from the spec: commit as a list node. -/
def DebugList.finish (b : DebugList) : Node := .list (Nodes.ofList b.items)

/-- Modelled from the spec (par. 4.2, `debug_set`): elements in call order
(the caller supplies them already ordered). -/
structure DebugSet where
  items : List Node

/-- Modelled from the spec: `Formatter::debug_set`. -/
def Formatter.debug_set : DebugSet := ⟨[]⟩

/-- Modelled from the spec: append one dispatched element. -/
def DebugSet.entry (b : DebugSet) (v : Val) : DebugSet :=
  ⟨b.items ++ [Formatter.process v]⟩

/-- Modelled from the spec: bulk `entries` folds `entry`. -/
def DebugSet.entries (b : DebugSet) (vs : List Val) : DebugSet :=
  vs.foldl DebugSet.entry b

/-- Modelled from the spec: commit as a set node. -/
def DebugSet.finish (b : DebugSet) : Node := .set (Nodes.ofList b.items)

/-- Modelled from the spec (par. 4.2, `debug_map`): key-value entries in
call order. -/
structure DebugMap where
  entries : List (Node × Node)

/-- Modelled from the spec: `Formatter::debug_map`. -/
def Formatter.debug_map : DebugMap := ⟨[]⟩

/-- Modelled from the spec: dispatch key and value eagerly and append the
pair. -/
def DebugMap.entry (b : DebugMap) (k v : Val) : DebugMap :=
  ⟨b.entries ++ [(Formatter.process k, Formatter.process v)]⟩

/-- Modelled from the spec: bulk `entries` folds `entry` over the pairs. -/
def DebugMap.entriesAll (b : DebugMap) (ps : List (Val × Val)) : DebugMap :=
  ps.foldl (fun a p => a.entry p.1 p.2) b

/-- Modelled from the spec: commit as a map node. -/
def DebugMap.finish (b : DebugMap) : Node := .map (Entries.ofList b.entries)

/-- First character of a Rust identifier (ASCII model): a letter or an
underscore. -/
def isIdentStart (c : Char) : Bool := c.isAlpha || c = '_'

/-- Continuation character of a Rust identifier (ASCII model): a letter, a
digit or an underscore. -/
def isIdentRest (c : Char) : Bool := c.isAlphanum || c = '_'

/-- Validity check performed by the identifier token constructor
(`syn::Ident::new`, an external collaborator of the crate; ASCII model):
the string is nonempty, starts with a letter or underscore and continues
with letters, digits or underscores.  The empty string and any string
containing a space are invalid. -/
def isValidIdent (s : String) : Bool :=
  match s.data with
  | [] => false
  | c :: cs => isIdentStart c && cs.all isIdentRest

/-- From `src/lib.rs` (`Formatter::debug_ident`): builds an identifier
token with the validating constructor `syn::Ident::new` — which aborts
(panics) when the name is not a valid identifier, modelled as `none` — and
installs the resulting bare path node into the slot. -/
def Formatter.debug_ident (name : String) : Option Node :=
  if isValidIdent name then some (Node.ident name) else none

/-- The ANSI escape character, first byte of every highlight marker. -/
def esc : Char := '\x1b'

/-- Modelled from the spec (par. 4.5; `colors.rs` is not in the provided
source): the opening highlight marker for each semantic class (reference:
ANSI escape codes). -/
def markerOf : HClass → String
  | .name => "\x1b[36m"
  | .lit => "\x1b[35m"
  | .punc => "\x1b[37m"

/-- The ANSI reset marker emitted after every highlighted token. -/
def resetMarker : String := "\x1b[0m"

/-- A token wrapped in its highlight marker and the reset marker. -/
def wrapSpan (s : Span) : String := markerOf s.cls ++ s.text ++ resetMarker

/-- Colorized text of a span sequence: the same visible tokens in the same
order, each wrapped in highlight markers. -/
def spansAnsi : List Span → String
  | [] => ""
  | s :: r => wrapSpan s ++ spansAnsi r

/-- Modelled from the spec (par. 4.5, par. 6): the colorized entry point —
the identical span traversal as `render_plain`, with markers interleaved. -/
def render_colored (v : Val) : String :=
  spansAnsi (renderSpans 0 0 (Formatter.process v))

/-- Character scanner removing ANSI highlight sequences: outside a
sequence, an escape character switches into skip mode; inside, characters
are skipped until the terminating letter `m`. -/
def stripAux : Bool → List Char → List Char
  | _, [] => []
  | true, c :: cs => if c = 'm' then stripAux false cs else stripAux true cs
  | false, c :: cs => if c = esc then stripAux true cs else c :: stripAux false cs

/-- Strip all ANSI highlight markers from a string. -/
def stripAnsi (s : String) : String := String.mk (stripAux false s.data)

/-- Named fields whose values are pre-rendered atoms. -/
def atomsF : List (String × String) → Fields
  | [] => .nil
  | (f, t) :: r => .cons f (.atom t) (atomsF r)

/-- Child sequence of pre-rendered atoms. -/
def atomsN : List String → Nodes
  | [] => .nil
  | t :: r => .cons (.atom t) (atomsN r)

/-- Map entries whose keys and values are pre-rendered atoms. -/
def atomsE : List (String × String) → Entries
  | [] => .nil
  | (k, v) :: r => .cons (.atom k) (.atom v) (atomsE r)

/-- Children joined by a separator (no trailing separator): the join used
by every single-line candidate form. -/
def joinSep (s : String) : List String → String
  | [] => ""
  | [t] => t
  | t :: u :: r => t ++ s ++ joinSep s (u :: r)

/-- Split a character list at every newline. -/
def splitNl : List Char → List (List Char)
  | [] => [[]]
  | c :: cs =>
      if c = '\n' then [] :: splitNl cs
      else
        match splitNl cs with
        | [] => [[c]]
        | l :: ls => (c :: l) :: ls

/-- The lines of a rendered string (split at every newline). -/
def strLines (s : String) : List String := (splitNl s.data).map String.mk

/-- The struct node of the test `debug_struct_big` in `src/lib.rs`: field
`foo` is `5` and field `bar` is a 39-column string literal, making the
single-line candidate 61 columns wide. -/
def demoBig : Node :=
  .namedStruct "Demo"
    (.cons "foo" (.atom "5")
      (.cons "bar" (.atom "\"Hello, world! I am a very long string\"") .nil))

/-- The two-entry map of the `debug_map` doc-test in `src/lib.rs`
(`BTreeMap::from([("Hello", 5), ("World", 10)])`), whose single-line
candidate is 33 columns wide. -/
def mapHW : Node :=
  .map (.cons (.atom "\"Hello\"") (.atom "5")
    (.cons (.atom "\"World\"") (.atom "10") .nil))

theorem spansText_append (a b : List Span) :
    spansText (a ++ b) = spansText a ++ spansText b := by
  induction a with
  | nil => simp [spansText]
  | cons s r ih => simp [spansText, ih, String.append_assoc]

theorem flatText_atom (t : String) : flatText (.atom t) = t := by
  simp [flatText, flatSpans, spansText]

theorem flatLen_atom (t : String) : flatLen (.atom t) = t.length := by
  simp [flatLen, flatText_atom]

theorem renderAt_atom (ind col : Nat) (t : String) :
    renderAt ind col (.atom t) = t := by
  simp [renderAt, renderSpans, spansText]

theorem renderAt_ident (ind col : Nat) (s : String) :
    renderAt ind col (.ident s) = s := by
  simp [renderAt, renderSpans, spansText]

theorem sp_nlfree (n : Nat) : '\n' ∉ (sp n).data := by
  simp [sp, List.mem_replicate]

theorem splitNl_ne_nil (l : List Char) : splitNl l ≠ [] := by
  induction l with
  | nil => simp [splitNl]
  | cons c cs ih =>
      simp only [splitNl]
      split
      · simp
      · split
        · simp
        · simp

theorem splitNl_line (u r : List Char) (h : '\n' ∉ u) :
    splitNl (u ++ '\n' :: r) = u :: splitNl r := by
  induction u with
  | nil => simp [splitNl]
  | cons c cs ih =>
      have hc : c ≠ '\n' := by rintro rfl; exact h (List.mem_cons_self _ _)
      have hcs : '\n' ∉ cs := fun hm => h (List.mem_cons_of_mem _ hm)
      simp only [List.cons_append, splitNl, if_neg hc, List.append_eq, ih hcs]

theorem splitNl_nlfree (u : List Char) (h : '\n' ∉ u) : splitNl u = [u] := by
  induction u with
  | nil => rfl
  | cons c cs ih =>
      have hc : c ≠ '\n' := by rintro rfl; exact h (List.mem_cons_self _ _)
      have hcs : '\n' ∉ cs := fun hm => h (List.mem_cons_of_mem _ hm)
      simp only [splitNl, if_neg hc, ih hcs]

theorem splitNl_str_line (u rest : String) (h : '\n' ∉ u.data) :
    splitNl ((u ++ "\n" ++ rest).data) = u.data :: splitNl rest.data := by
  have hd : (u ++ "\n" ++ rest).data = u.data ++ '\n' :: rest.data := by
    have h1 : ("\n" : String).data = ['\n'] := rfl
    simp [String.data_append, h1]
  rw [hd, splitNl_line _ _ h]

theorem flatItems_atoms (ts : List String) :
    spansText (flatItems (atomsN ts)) = joinSep ", " ts := by
  induction ts with
  | nil => rfl
  | cons t r ih =>
      cases r with
      | nil => simp [atomsN, flatItems, flatSpans, spansText, joinSep]
      | cons u r2 =>
          simp only [atomsN, flatItems, flatSpans, joinSep] at ih ⊢
          simp [spansText_append, spansText, ih, String.append_assoc]

theorem flatSetItems_atoms (ts : List String) :
    spansText (flatSetItems (atomsN ts)) = joinSep "; " ts := by
  induction ts with
  | nil => rfl
  | cons t r ih =>
      cases r with
      | nil => simp [atomsN, flatSetItems, flatSpans, spansText, joinSep]
      | cons u r2 =>
          simp only [atomsN, flatSetItems, flatSpans, joinSep] at ih ⊢
          simp [spansText_append, spansText, ih, String.append_assoc]

theorem flatFields_atoms (fs : List (String × String)) :
    spansText (flatFields (atomsF fs)) =
      joinSep ", " (fs.map fun p => p.1 ++ ": " ++ p.2) := by
  induction fs with
  | nil => rfl
  | cons p r ih =>
      cases p with
      | mk f t =>
          cases r with
          | nil => simp [atomsF, flatFields, flatSpans, spansText, joinSep, String.append_assoc]
          | cons q r2 =>
              cases q with
              | mk g u =>
                  simp only [atomsF, flatFields, flatSpans, joinSep, List.map] at ih ⊢
                  simp [spansText_append, spansText, ih, String.append_assoc]

theorem flatEntries_atoms (es : List (String × String)) :
    spansText (flatEntries (atomsE es)) =
      joinSep " " (es.map fun p => "[" ++ p.1 ++ "] = " ++ p.2 ++ ";") := by
  induction es with
  | nil => rfl
  | cons p r ih =>
      cases p with
      | mk k v =>
          cases r with
          | nil => simp [atomsE, flatEntries, flatSpans, spansText, joinSep, String.append_assoc]
          | cons q r2 =>
              cases q with
              | mk k2 v2 =>
                  simp only [atomsE, flatEntries, flatSpans, joinSep, List.map] at ih ⊢
                  simp [spansText_append, spansText, ih, String.append_assoc]

theorem flatText_list_atoms (ts : List String) :
    flatText (.list (atomsN ts)) = "[" ++ joinSep ", " ts ++ "]" := by
  simp [flatText, flatSpans, spansText_append, spansText, flatItems_atoms, String.append_assoc]

theorem flatText_tuple_atoms (ts : List String) :
    flatText (.tuple (atomsN ts)) = "(" ++ joinSep ", " ts ++ ")" := by
  simp [flatText, flatSpans, spansText_append, spansText, flatItems_atoms, String.append_assoc]

theorem flatText_tupleStruct_atoms (n : String) (ts : List String) :
    flatText (.tupleStruct n (atomsN ts)) = n ++ "(" ++ joinSep ", " ts ++ ")" := by
  simp [flatText, flatSpans, spansText_append, spansText, flatItems_atoms, String.append_assoc]

theorem flatText_struct_atoms (n f t : String) (fs : List (String × String)) :
    flatText (.namedStruct n (atomsF ((f, t) :: fs))) =
      n ++ " \x7b " ++ joinSep ", " (((f, t) :: fs).map fun p => p.1 ++ ": " ++ p.2) ++ " \x7d" := by
  have h := flatFields_atoms ((f, t) :: fs)
  simp only [atomsF] at h ⊢
  simp [flatText, flatSpans, spansText_append, spansText, h, String.append_assoc]

theorem flatText_set_atoms (t : String) (ts : List String) :
    flatText (.set (atomsN (t :: ts))) = "\x7b" ++ joinSep "; " (t :: ts) ++ "\x7d" := by
  have h := flatSetItems_atoms (t :: ts)
  simp only [atomsN] at h ⊢
  simp [flatText, flatSpans, spansText_append, spansText, h, String.append_assoc]

theorem flatText_map_atoms (k v : String) (es : List (String × String)) :
    flatText (.map (atomsE ((k, v) :: es))) =
      "\x7b" ++ joinSep " " (((k, v) :: es).map fun p => "[" ++ p.1 ++ "] = " ++ p.2 ++ ";") ++ "\x7d" := by
  have h := flatEntries_atoms ((k, v) :: es)
  simp only [atomsE] at h ⊢
  simp [flatText, flatSpans, spansText_append, spansText, h, String.append_assoc]

theorem mk_data (s : String) : String.mk s.data = s := rfl

theorem comma_nl_split : (",\n" : String) = "," ++ "\n" := rfl

theorem semi_nl_split : (";\n" : String) = ";" ++ "\n" := rfl

theorem brace_nl_split : (" \x7b\n" : String) = " \x7b" ++ "\n" := rfl

theorem open_brace_nl_split : ("\x7b\n" : String) = "\x7b" ++ "\n" := rfl

theorem paren_nl_split : ("(\n" : String) = "(" ++ "\n" := rfl

theorem bracket_nl_split : ("[\n" : String) = "[" ++ "\n" := rfl

theorem nlfree_append (a b : String) (ha : '\n' ∉ a.data) (hb : '\n' ∉ b.data) :
    '\n' ∉ (a ++ b).data := by
  simp [String.data_append, ha, hb]

theorem lines_multiItems (ind : Nat) (ts : List String) (tail : String)
    (h : ∀ t ∈ ts, '\n' ∉ t.data) :
    splitNl ((spansText (multiItems ind (atomsN ts)) ++ tail).data) =
      ts.map (fun t => (sp ind ++ t ++ ",").data) ++ splitNl tail.data := by
  induction ts with
  | nil => simp [atomsN, multiItems, spansText]
  | cons t r ih =>
      have ht : '\n' ∉ t.data := h t (List.mem_cons_self _ _)
      have hr : ∀ u ∈ r, '\n' ∉ u.data := fun u hu => h u (List.mem_cons_of_mem _ hu)
      have hdec : spansText (multiItems ind (atomsN (t :: r))) ++ tail =
          (sp ind ++ t ++ ",") ++ "\n" ++ (spansText (multiItems ind (atomsN r)) ++ tail) := by
        simp [atomsN, multiItems, spansText_append, spansText, renderSpans,
          comma_nl_split, String.append_assoc]
      have hline : '\n' ∉ (sp ind ++ t ++ ",").data :=
        nlfree_append _ _ (nlfree_append _ _ (sp_nlfree ind) ht) (by decide)
      rw [hdec, splitNl_str_line _ _ hline, ih hr]
      simp

theorem lines_multiFields (ind : Nat) (fs : List (String × String)) (tail : String)
    (h : ∀ p ∈ fs, '\n' ∉ p.1.data ∧ '\n' ∉ p.2.data) :
    splitNl ((spansText (multiFields ind (atomsF fs)) ++ tail).data) =
      fs.map (fun p => (sp ind ++ p.1 ++ ": " ++ p.2 ++ ",").data) ++ splitNl tail.data := by
  induction fs with
  | nil => simp [atomsF, multiFields, spansText]
  | cons p r ih =>
      cases p with
      | mk f t =>
          have ht := h (f, t) (List.mem_cons_self _ _)
          have hr : ∀ q ∈ r, '\n' ∉ q.1.data ∧ '\n' ∉ q.2.data :=
            fun q hq => h q (List.mem_cons_of_mem _ hq)
          have hdec : spansText (multiFields ind (atomsF ((f, t) :: r))) ++ tail =
              (sp ind ++ f ++ ": " ++ t ++ ",") ++ "\n" ++
                (spansText (multiFields ind (atomsF r)) ++ tail) := by
            simp [atomsF, multiFields, spansText_append, spansText, renderSpans,
              comma_nl_split, String.append_assoc]
          have hline : '\n' ∉ (sp ind ++ f ++ ": " ++ t ++ ",").data :=
            nlfree_append _ _
              (nlfree_append _ _
                (nlfree_append _ _ (nlfree_append _ _ (sp_nlfree ind) ht.1) (by decide)) ht.2)
              (by decide)
          rw [hdec, splitNl_str_line _ _ hline, ih hr]
          simp

theorem lines_multiEntries (ind : Nat) (es : List (String × String)) (tail : String)
    (h : ∀ p ∈ es, '\n' ∉ p.1.data ∧ '\n' ∉ p.2.data)
    (hfit : ∀ p ∈ es, ind + (p.1.length + p.2.length + 6) ≤ lineWidth) :
    splitNl ((spansText (multiEntries ind (atomsE es)) ++ tail).data) =
      es.map (fun p => (sp ind ++ "[" ++ p.1 ++ "] = " ++ p.2 ++ ";").data) ++ splitNl tail.data := by
  induction es with
  | nil => simp [atomsE, multiEntries, spansText]
  | cons p r ih =>
      cases p with
      | mk k v =>
          have hkv := h (k, v) (List.mem_cons_self _ _)
          have hr : ∀ q ∈ r, '\n' ∉ q.1.data ∧ '\n' ∉ q.2.data :=
            fun q hq => h q (List.mem_cons_of_mem _ hq)
          have hfr : ∀ q ∈ r, ind + (q.1.length + q.2.length + 6) ≤ lineWidth :=
            fun q hq => hfit q (List.mem_cons_of_mem _ hq)
          have hfkv : ind + (flatLen (Node.atom k) + flatLen (Node.atom v) + 6) ≤ lineWidth := by
            rw [flatLen_atom, flatLen_atom]; exact hfit (k, v) (List.mem_cons_self _ _)
          have hdec : spansText (multiEntries ind (atomsE ((k, v) :: r))) ++ tail =
              (sp ind ++ "[" ++ k ++ "] = " ++ v ++ ";") ++ "\n" ++
                (spansText (multiEntries ind (atomsE r)) ++ tail) := by
            simp only [atomsE, multiEntries, if_pos hfkv]
            simp [spansText_append, spansText, flatSpans, semi_nl_split, String.append_assoc]
          have hline : '\n' ∉ (sp ind ++ "[" ++ k ++ "] = " ++ v ++ ";").data :=
            nlfree_append _ _
              (nlfree_append _ _
                (nlfree_append _ _
                  (nlfree_append _ _ (nlfree_append _ _ (sp_nlfree ind) (by decide)) hkv.1)
                  (by decide)) hkv.2)
              (by decide)
          rw [hdec, splitNl_str_line _ _ hline, ih hr hfr]
          simp

theorem lines_multiSetItems (ind : Nat) (us : List String) (lastT : String) (tail : String)
    (h : ∀ t ∈ us ++ [lastT], '\n' ∉ t.data) :
    splitNl ((spansText (multiSetItems ind (atomsN (us ++ [lastT]))) ++ tail).data) =
      us.map (fun t => (sp ind ++ t ++ ";").data) ++ [(sp ind ++ lastT).data] ++ splitNl tail.data := by
  induction us with
  | nil =>
      have hl : '\n' ∉ lastT.data := h lastT (by simp)
      have hdec : spansText (multiSetItems ind (atomsN ([] ++ [lastT]))) ++ tail =
          (sp ind ++ lastT) ++ "\n" ++ tail := by
        simp [atomsN, multiSetItems, spansText_append, spansText, renderSpans, String.append_assoc]
      have hline : '\n' ∉ (sp ind ++ lastT).data :=
        nlfree_append _ _ (sp_nlfree ind) hl
      rw [hdec, splitNl_str_line _ _ hline]
      simp
  | cons u us' ih =>
      have hu : '\n' ∉ u.data := h u (by simp)
      have hrest : ∀ t ∈ us' ++ [lastT], '\n' ∉ t.data := by
        intro t htm
        exact h t (by simp at htm ⊢; tauto)
      have hline : '\n' ∉ (sp ind ++ u ++ ";").data :=
        nlfree_append _ _ (nlfree_append _ _ (sp_nlfree ind) hu) (by decide)
      have hdec : spansText (multiSetItems ind (atomsN ((u :: us') ++ [lastT]))) ++ tail =
          (sp ind ++ u ++ ";") ++ "\n" ++
            (spansText (multiSetItems ind (atomsN (us' ++ [lastT]))) ++ tail) := by
        cases us' with
        | nil =>
            simp [atomsN, multiSetItems, spansText_append, spansText, renderSpans,
              semi_nl_split, String.append_assoc]
        | cons w ws =>
            simp [atomsN, multiSetItems, spansText_append, spansText, renderSpans,
              semi_nl_split, String.append_assoc]
      rw [hdec, splitNl_str_line _ _ hline, ih hrest]
      simp

theorem lines_render_struct (ind col : Nat) (n f t : String) (fs : List (String × String))
    (hn : '\n' ∉ n.data)
    (hfs : ∀ p ∈ (f, t) :: fs, '\n' ∉ p.1.data ∧ '\n' ∉ p.2.data)
    (hw : lineWidth < col + flatLen (.namedStruct n (atomsF ((f, t) :: fs)))) :
    strLines (renderAt ind col (.namedStruct n (atomsF ((f, t) :: fs)))) =
      (n ++ " \x7b") ::
        ((f, t) :: fs).map (fun p => sp (ind + indentStep) ++ p.1 ++ ": " ++ p.2 ++ ",") ++
        [sp ind ++ "\x7d"] := by
  simp only [atomsF] at hw ⊢
  have hnot : ¬ (col + flatLen (.namedStruct n (.cons f (.atom t) (atomsF fs))) ≤ lineWidth) := by
    omega
  have hdec : renderAt ind col (.namedStruct n (.cons f (.atom t) (atomsF fs))) =
      (n ++ " \x7b") ++ "\n" ++
        (spansText (multiFields (ind + indentStep) (.cons f (.atom t) (atomsF fs))) ++
          (sp ind ++ "\x7d")) := by
    simp only [renderAt, renderSpans, if_neg hnot]
    simp [spansText_append, spansText, brace_nl_split, String.append_assoc]
  have hhead : '\n' ∉ (n ++ " \x7b").data := nlfree_append _ _ hn (by decide)
  have hclose : '\n' ∉ (sp ind ++ "\x7d").data :=
    nlfree_append _ _ (sp_nlfree ind) (by decide)
  have hlm := lines_multiFields (ind + indentStep) ((f, t) :: fs) (sp ind ++ "\x7d") hfs
  simp only [atomsF] at hlm
  rw [strLines, hdec, splitNl_str_line _ _ hhead, hlm, splitNl_nlfree _ hclose]
  simp only [List.map_cons, List.map_append, List.map_map, List.map_nil, List.cons_append,
    List.nil_append, Function.comp_def, mk_data]

theorem lines_render_list (ind col : Nat) (t : String) (ts : List String)
    (hts : ∀ u ∈ t :: ts, '\n' ∉ u.data)
    (hw : lineWidth < col + flatLen (.list (atomsN (t :: ts)))) :
    strLines (renderAt ind col (.list (atomsN (t :: ts)))) =
      "[" :: (t :: ts).map (fun u => sp (ind + indentStep) ++ u ++ ",") ++ [sp ind ++ "]"] := by
  simp only [atomsN] at hw ⊢
  have hnot : ¬ (col + flatLen (.list (.cons (.atom t) (atomsN ts))) ≤ lineWidth) := by omega
  have hdec : renderAt ind col (.list (.cons (.atom t) (atomsN ts))) =
      ("[" : String) ++ "\n" ++
        (spansText (multiItems (ind + indentStep) (.cons (.atom t) (atomsN ts))) ++
          (sp ind ++ "]")) := by
    simp only [renderAt, renderSpans, if_neg hnot]
    simp [spansText_append, spansText, bracket_nl_split, String.append_assoc]
  have hhead : '\n' ∉ ("[" : String).data := by decide
  have hclose : '\n' ∉ (sp ind ++ "]").data := nlfree_append _ _ (sp_nlfree ind) (by decide)
  have hlm := lines_multiItems (ind + indentStep) (t :: ts) (sp ind ++ "]") hts
  simp only [atomsN] at hlm
  rw [strLines, hdec, splitNl_str_line _ _ hhead, hlm, splitNl_nlfree _ hclose]
  simp only [List.map_cons, List.map_append, List.map_map, List.map_nil, List.cons_append,
    List.nil_append, Function.comp_def, mk_data]

theorem lines_render_tuple (ind col : Nat) (t : String) (ts : List String)
    (hts : ∀ u ∈ t :: ts, '\n' ∉ u.data)
    (hw : lineWidth < col + flatLen (.tuple (atomsN (t :: ts)))) :
    strLines (renderAt ind col (.tuple (atomsN (t :: ts)))) =
      "(" :: (t :: ts).map (fun u => sp (ind + indentStep) ++ u ++ ",") ++ [sp ind ++ ")"] := by
  simp only [atomsN] at hw ⊢
  have hnot : ¬ (col + flatLen (.tuple (.cons (.atom t) (atomsN ts))) ≤ lineWidth) := by omega
  have hdec : renderAt ind col (.tuple (.cons (.atom t) (atomsN ts))) =
      ("(" : String) ++ "\n" ++
        (spansText (multiItems (ind + indentStep) (.cons (.atom t) (atomsN ts))) ++
          (sp ind ++ ")")) := by
    simp only [renderAt, renderSpans, if_neg hnot]
    simp [spansText_append, spansText, paren_nl_split, String.append_assoc]
  have hhead : '\n' ∉ ("(" : String).data := by decide
  have hclose : '\n' ∉ (sp ind ++ ")").data := nlfree_append _ _ (sp_nlfree ind) (by decide)
  have hlm := lines_multiItems (ind + indentStep) (t :: ts) (sp ind ++ ")") hts
  simp only [atomsN] at hlm
  rw [strLines, hdec, splitNl_str_line _ _ hhead, hlm, splitNl_nlfree _ hclose]
  simp only [List.map_cons, List.map_append, List.map_map, List.map_nil, List.cons_append,
    List.nil_append, Function.comp_def, mk_data]

theorem lines_render_tupleStruct (ind col : Nat) (n t : String) (ts : List String)
    (hn : '\n' ∉ n.data)
    (hts : ∀ u ∈ t :: ts, '\n' ∉ u.data)
    (hw : lineWidth < col + flatLen (.tupleStruct n (atomsN (t :: ts)))) :
    strLines (renderAt ind col (.tupleStruct n (atomsN (t :: ts)))) =
      (n ++ "(") :: (t :: ts).map (fun u => sp (ind + indentStep) ++ u ++ ",") ++ [sp ind ++ ")"] := by
  simp only [atomsN] at hw ⊢
  have hnot : ¬ (col + flatLen (.tupleStruct n (.cons (.atom t) (atomsN ts))) ≤ lineWidth) := by
    omega
  have hdec : renderAt ind col (.tupleStruct n (.cons (.atom t) (atomsN ts))) =
      (n ++ "(") ++ "\n" ++
        (spansText (multiItems (ind + indentStep) (.cons (.atom t) (atomsN ts))) ++
          (sp ind ++ ")")) := by
    simp only [renderAt, renderSpans, if_neg hnot]
    simp [spansText_append, spansText, paren_nl_split, String.append_assoc]
  have hhead : '\n' ∉ (n ++ "(").data := nlfree_append _ _ hn (by decide)
  have hclose : '\n' ∉ (sp ind ++ ")").data := nlfree_append _ _ (sp_nlfree ind) (by decide)
  have hlm := lines_multiItems (ind + indentStep) (t :: ts) (sp ind ++ ")") hts
  simp only [atomsN] at hlm
  rw [strLines, hdec, splitNl_str_line _ _ hhead, hlm, splitNl_nlfree _ hclose]
  simp only [List.map_cons, List.map_append, List.map_map, List.map_nil, List.cons_append,
    List.nil_append, Function.comp_def, mk_data]

theorem lines_render_map (ind col : Nat) (k v : String) (es : List (String × String))
    (hes : ∀ p ∈ (k, v) :: es, '\n' ∉ p.1.data ∧ '\n' ∉ p.2.data)
    (hfit : ∀ p ∈ (k, v) :: es,
      (ind + indentStep) + (p.1.length + p.2.length + 6) ≤ lineWidth) :
    strLines (renderAt ind col (.map (atomsE ((k, v) :: es)))) =
      "\x7b" ::
        ((k, v) :: es).map (fun p => sp (ind + indentStep) ++ "[" ++ p.1 ++ "] = " ++ p.2 ++ ";") ++
        [sp ind ++ "\x7d"] := by
  simp only [atomsE] at *
  have hdec : renderAt ind col (.map (.cons (.atom k) (.atom v) (atomsE es))) =
      ("\x7b" : String) ++ "\n" ++
        (spansText (multiEntries (ind + indentStep) (.cons (.atom k) (.atom v) (atomsE es))) ++
          (sp ind ++ "\x7d")) := by
    simp only [renderAt, renderSpans]
    simp [spansText_append, spansText, open_brace_nl_split, String.append_assoc]
  have hhead : '\n' ∉ ("\x7b" : String).data := by decide
  have hclose : '\n' ∉ (sp ind ++ "\x7d").data := nlfree_append _ _ (sp_nlfree ind) (by decide)
  have hlm := lines_multiEntries (ind + indentStep) ((k, v) :: es) (sp ind ++ "\x7d") hes hfit
  simp only [atomsE] at hlm
  rw [strLines, hdec, splitNl_str_line _ _ hhead, hlm, splitNl_nlfree _ hclose]
  simp only [List.map_cons, List.map_append, List.map_map, List.map_nil, List.cons_append,
    List.nil_append, Function.comp_def, mk_data]

theorem lines_render_set (ind col : Nat) (us : List String) (lastT : String)
    (hus : ∀ u ∈ us ++ [lastT], '\n' ∉ u.data) :
    strLines (renderAt ind col (.set (atomsN (us ++ [lastT])))) =
      "\x7b" :: us.map (fun u => sp (ind + indentStep) ++ u ++ ";") ++
        [sp (ind + indentStep) ++ lastT, sp ind ++ "\x7d"] := by
  have hcons : ∃ x r, atomsN (us ++ [lastT]) = Nodes.cons x r := by
    cases us with
    | nil => exact ⟨_, _, rfl⟩
    | cons a b => exact ⟨_, _, rfl⟩
  obtain ⟨x, r, hxr⟩ := hcons
  have hdec : renderAt ind col (.set (atomsN (us ++ [lastT]))) =
      ("\x7b" : String) ++ "\n" ++
        (spansText (multiSetItems (ind + indentStep) (atomsN (us ++ [lastT]))) ++
          (sp ind ++ "\x7d")) := by
    rw [hxr]
    simp only [renderAt, renderSpans]
    simp [spansText_append, spansText, open_brace_nl_split, String.append_assoc]
  have hhead : '\n' ∉ ("\x7b" : String).data := by decide
  have hclose : '\n' ∉ (sp ind ++ "\x7d").data := nlfree_append _ _ (sp_nlfree ind) (by decide)
  have hlm := lines_multiSetItems (ind + indentStep) us lastT (sp ind ++ "\x7d") hus
  rw [strLines, hdec, splitNl_str_line _ _ hhead, hlm, splitNl_nlfree _ hclose]
  simp only [List.map_cons, List.map_append, List.map_map, List.map_nil, List.cons_append,
    List.nil_append, List.append_assoc, List.singleton_append, Function.comp_def, mk_data]

theorem DebugList_entries_items (vs : List Val) (b : DebugList) :
    (b.entries vs).items = b.items ++ vs.map Formatter.process := by
  induction vs generalizing b with
  | nil => simp [DebugList.entries]
  | cons v r ih =>
      simp [DebugList.entries, DebugList.entry] at ih ⊢
      rw [ih]
      simp

theorem DebugSet_entries_items (vs : List Val) (b : DebugSet) :
    (b.entries vs).items = b.items ++ vs.map Formatter.process := by
  induction vs generalizing b with
  | nil => simp [DebugSet.entries]
  | cons v r ih =>
      simp [DebugSet.entries, DebugSet.entry] at ih ⊢
      rw [ih]
      simp

theorem DebugMap_entriesAll_entries (ps : List (Val × Val)) (b : DebugMap) :
    (b.entriesAll ps).entries =
      b.entries ++ ps.map (fun p => (Formatter.process p.1, Formatter.process p.2)) := by
  induction ps generalizing b with
  | nil => simp [DebugMap.entriesAll]
  | cons p r ih =>
      simp [DebugMap.entriesAll, DebugMap.entry] at ih ⊢
      rw [ih]
      simp

theorem DebugStruct_foldl_fields (fs : List (String × Val)) (b : DebugStruct) :
    (fs.foldl (fun a p => a.field p.1 p.2) b).fields =
      b.fields ++ fs.map (fun p => (p.1, Formatter.process p.2)) := by
  induction fs generalizing b with
  | nil => simp
  | cons p r ih =>
      simp only [List.foldl_cons]
      rw [ih]
      simp [DebugStruct.field]

theorem DebugStruct_foldl_name (fs : List (String × Val)) (b : DebugStruct) :
    (fs.foldl (fun a p => a.field p.1 p.2) b).name = b.name := by
  induction fs generalizing b with
  | nil => simp
  | cons p r ih =>
      simp only [List.foldl_cons]
      rw [ih]
      simp [DebugStruct.field]

theorem DebugTuple_foldl_fields (vs : List Val) (b : DebugTuple) :
    (vs.foldl DebugTuple.field b).fields = b.fields ++ vs.map Formatter.process := by
  induction vs generalizing b with
  | nil => simp
  | cons v r ih =>
      simp only [List.foldl_cons]
      rw [ih]
      simp [DebugTuple.field]

theorem DebugTupleStruct_foldl_fields (vs : List Val) (b : DebugTupleStruct) :
    (vs.foldl DebugTupleStruct.field b).fields = b.fields ++ vs.map Formatter.process := by
  induction vs generalizing b with
  | nil => simp
  | cons v r ih =>
      simp only [List.foldl_cons]
      rw [ih]
      simp [DebugTupleStruct.field]

theorem DebugTupleStruct_foldl_name (vs : List Val) (b : DebugTupleStruct) :
    (vs.foldl DebugTupleStruct.field b).name = b.name := by
  induction vs generalizing b with
  | nil => simp
  | cons v r ih =>
      simp only [List.foldl_cons]
      rw [ih]
      simp [DebugTupleStruct.field]

theorem stripAux_escfree (l r : List Char) (h : esc ∉ l) :
    stripAux false (l ++ r) = l ++ stripAux false r := by
  induction l with
  | nil => simp
  | cons c cs ih =>
      have hc : c ≠ esc := by rintro rfl; exact h (List.mem_cons_self _ _)
      have hcs : esc ∉ cs := fun hm => h (List.mem_cons_of_mem _ hm)
      simp only [List.cons_append, stripAux, if_neg hc, List.append_eq, ih hcs]

theorem strip_wrap (cls : HClass) (text : String) (r : List Char) (h : esc ∉ text.data) :
    stripAux false ((wrapSpan (Span.mk cls text)).data ++ r) = text.data ++ stripAux false r := by
  have hreset : ∀ l : List Char, stripAux false ((resetMarker).data ++ l) = stripAux false l :=
    fun _ => rfl
  cases cls with
  | name =>
      show stripAux false
        (esc :: '[' :: '3' :: '6' :: 'm' :: ((text.data ++ (resetMarker).data) ++ r)) =
          text.data ++ stripAux false r
      rw [show ∀ l : List Char,
        stripAux false (esc :: '[' :: '3' :: '6' :: 'm' :: l) = stripAux false l from fun _ => rfl]
      rw [List.append_assoc, stripAux_escfree _ _ h, hreset]
  | lit =>
      show stripAux false
        (esc :: '[' :: '3' :: '5' :: 'm' :: ((text.data ++ (resetMarker).data) ++ r)) =
          text.data ++ stripAux false r
      rw [show ∀ l : List Char,
        stripAux false (esc :: '[' :: '3' :: '5' :: 'm' :: l) = stripAux false l from fun _ => rfl]
      rw [List.append_assoc, stripAux_escfree _ _ h, hreset]
  | punc =>
      show stripAux false
        (esc :: '[' :: '3' :: '7' :: 'm' :: ((text.data ++ (resetMarker).data) ++ r)) =
          text.data ++ stripAux false r
      rw [show ∀ l : List Char,
        stripAux false (esc :: '[' :: '3' :: '7' :: 'm' :: l) = stripAux false l from fun _ => rfl]
      rw [List.append_assoc, stripAux_escfree _ _ h, hreset]

theorem strip_spans_aux (l : List Span) (h : esc ∉ (spansText l).data) :
    stripAux false (spansAnsi l).data = (spansText l).data := by
  induction l with
  | nil => rfl
  | cons s r ih =>
      have hdata : (spansText (s :: r)).data = s.text.data ++ (spansText r).data := by
        simp [spansText, String.data_append]
      rw [hdata] at h ⊢
      have hs : esc ∉ s.text.data := fun hm => h (List.mem_append_left _ hm)
      have hr : esc ∉ (spansText r).data := fun hm => h (List.mem_append_right _ hm)
      have hansi : (spansAnsi (s :: r)).data = (wrapSpan s).data ++ (spansAnsi r).data := by
        simp [spansAnsi, String.data_append]
      rw [hansi]
      cases s with
      | mk cls text => rw [strip_wrap cls text _ hs, ih hr]

theorem strip_spans (l : List Span) (h : esc ∉ (spansText l).data) :
    stripAnsi (spansAnsi l) = spansText l := by
  rw [stripAnsi, strip_spans_aux l h, mk_data]

/-- C3: a set of the two integers 420 and 69, supplied to the set builder in
ascending order (69 then 420), renders in plain form as exactly the
multi-line text with `69;` and `420` on indented lines (matching the test
`debug_small_set` in `src/lib.rs`). -/
theorem c3_small_set_render :
    (((Formatter.debug_set.entry (fun _ => Node.atom "69")).entry
        (fun _ => Node.atom "420")).finish =
      Node.set (.cons (.atom "69") (.cons (.atom "420") .nil))) ∧
    render_plain (fun _ =>
        (((Formatter.debug_set.entry (fun _ => Node.atom "69")).entry
          (fun _ => Node.atom "420")).finish)) =
      "\x7b\n    69;\n    420\n\x7d" :=
  ⟨rfl, rfl⟩

/-- C7: every composite node with no children renders as its single-line
empty form at any position (hence regardless of the width budget); in
particular an empty named struct renders as the bare name with empty braces
(`name\x7b\x7d`, spec par. 4.4), which differs from the bare name alone that
the par. 6 grammar states. -/
theorem c7_empty_composites (ind col : Nat) (name : String) :
    renderAt ind col (.namedStruct name .nil) = name ++ "\x7b\x7d" ∧
    renderAt ind col (.tuple .nil) = "()" ∧
    renderAt ind col (.tupleStruct name .nil) = name ++ "()" ∧
    renderAt ind col (.list .nil) = "[]" ∧
    renderAt ind col (.map .nil) = "\x7b\x7d" ∧
    renderAt ind col (.set .nil) = "\x7b\x7d" ∧
    renderAt ind col (.namedStruct name .nil) ≠ name := by
  refine ⟨?_, rfl, ?_, rfl, rfl, rfl, ?_⟩
  · simp [renderAt, renderSpans, spansText]
  · simp [renderAt, renderSpans, spansText]
  · intro hcontra
    have h1 : renderAt ind col (.namedStruct name .nil) = name ++ "\x7b\x7d" := by
      simp [renderAt, renderSpans, spansText]
    rw [h1] at hcontra
    have h2 := congrArg String.length hcontra
    rw [String.length_append, show ("\x7b\x7d" : String).length = 2 from rfl] at h2
    omega

/-- C8: a dispatch implementation that populates nothing into its output
slot raises no error: the slot keeps the default empty verbatim node
installed by `Formatter::process` before dispatch (src/lib.rs lines
173-177), and rendering proceeds, producing empty text. -/
theorem c8_unpopulated_slot_default :
    Formatter.process id = Node.verbatim "" ∧ render_plain id = "" :=
  ⟨rfl, rfl⟩

/-- C9: rendering is deterministic — two renders of the same value produce
byte-identical output text, for both the plain and the colored entry
points. -/
theorem c9_render_deterministic (v : Val) :
    render_plain v = render_plain v ∧ render_colored v = render_colored v :=
  ⟨rfl, rfl⟩

/-- C10: `debug_ident` is not total over arbitrary strings: it aborts
(modelled as `none`) when the name is not a valid identifier — for example
the empty string or a string containing spaces — because the identifier
token is built with a validating constructor; for every valid identifier it
installs a bare identifier node rendering as exactly that name. -/
theorem c10_debug_ident_validation :
    Formatter.debug_ident "" = none ∧
    Formatter.debug_ident "not an ident" = none ∧
    ∀ name : String, isValidIdent name = true →
      Formatter.debug_ident name = some (Node.ident name) ∧
      ∀ ind col : Nat, renderAt ind col (Node.ident name) = name := by
  refine ⟨rfl, rfl, ?_⟩
  intro name h
  exact ⟨by simp [Formatter.debug_ident, h], fun ind col => renderAt_ident ind col name⟩

/-- Witness for C10 at the identifier `Foo` (the unit struct of the
`debug_ident` doc-test in `src/lib.rs`). -/
theorem c10_debug_ident_validation_witness :
    Formatter.debug_ident "Foo" = some (Node.ident "Foo") ∧
    renderAt 0 0 (Node.ident "Foo") = "Foo" :=
  ⟨(c10_debug_ident_validation.2.2 "Foo" (by decide)).1,
   (c10_debug_ident_validation.2.2 "Foo" (by decide)).2 0 0⟩

/-- C2 counterexample: the struct of the repository test `debug_struct_big`
(`Demo \x7b foo: 5, bar: "Hello, world! I am a very long string" \x7d`) has a
single-line candidate of exactly 61 visible columns — at most 80 columns,
rendered from column 0, with only atomic children that can never require
multi-line form — yet the renderer emits the multi-line form that the test
asserts, not the single-line candidate.  The claim's 80-column threshold is
wrong for this code. -/
theorem c2_width80_counterexample :
    flatLen demoBig = 61 ∧
    flatLen demoBig ≤ 80 ∧
    renderNode demoBig ≠ flatText demoBig ∧
    renderNode demoBig =
      "Demo \x7b\n    foo: 5,\n    bar: \"Hello, world! I am a very long string\",\n\x7d" :=
  ⟨rfl, by decide, by decide, rfl⟩

/-- C2 amended: the effective budget is 60 columns, not 80 (the repository
tests bound it within `[41, 60]`; the model fixes 60).  For every nonempty
struct, tuple, tuple-struct or list node: if the single-line candidate,
measured from the current column, is at most 60 columns, the renderer
emits the single-line form; at 61 columns or more (hence in particular at
81 or more) it emits the multi-line form.  Nonempty map and set nodes
always take the multi-line form. -/
theorem c2_width_threshold_amended (ind col : Nat) (n f : String) (v : Node) (fr : Fields)
    (x : Node) (xr : Nodes) :
    ((col + flatLen (.namedStruct n (.cons f v fr)) ≤ lineWidth →
      renderAt ind col (.namedStruct n (.cons f v fr)) =
        flatText (.namedStruct n (.cons f v fr))) ∧
    (lineWidth < col + flatLen (.namedStruct n (.cons f v fr)) →
      renderAt ind col (.namedStruct n (.cons f v fr)) =
        n ++ " \x7b\n" ++ spansText (multiFields (ind + indentStep) (.cons f v fr)) ++
          sp ind ++ "\x7d")) ∧
    ((col + flatLen (.tuple (.cons x xr)) ≤ lineWidth →
      renderAt ind col (.tuple (.cons x xr)) = flatText (.tuple (.cons x xr))) ∧
    (lineWidth < col + flatLen (.tuple (.cons x xr)) →
      renderAt ind col (.tuple (.cons x xr)) =
        "(\n" ++ spansText (multiItems (ind + indentStep) (.cons x xr)) ++ sp ind ++ ")")) ∧
    ((col + flatLen (.tupleStruct n (.cons x xr)) ≤ lineWidth →
      renderAt ind col (.tupleStruct n (.cons x xr)) = flatText (.tupleStruct n (.cons x xr))) ∧
    (lineWidth < col + flatLen (.tupleStruct n (.cons x xr)) →
      renderAt ind col (.tupleStruct n (.cons x xr)) =
        n ++ "(\n" ++ spansText (multiItems (ind + indentStep) (.cons x xr)) ++ sp ind ++ ")")) ∧
    ((col + flatLen (.list (.cons x xr)) ≤ lineWidth →
      renderAt ind col (.list (.cons x xr)) = flatText (.list (.cons x xr))) ∧
    (lineWidth < col + flatLen (.list (.cons x xr)) →
      renderAt ind col (.list (.cons x xr)) =
        "[\n" ++ spansText (multiItems (ind + indentStep) (.cons x xr)) ++ sp ind ++ "]")) := by
  refine ⟨⟨fun hsf => ?_, fun hsm => ?_⟩, ⟨fun htf => ?_, fun htm => ?_⟩,
    ⟨fun hcf => ?_, fun hcm => ?_⟩, ⟨fun hlf => ?_, fun hlm => ?_⟩⟩
  · simp only [renderAt, renderSpans, if_pos hsf, flatText]
  · simp only [renderAt, renderSpans,
      if_neg (by omega : ¬ col + flatLen (.namedStruct n (.cons f v fr)) ≤ lineWidth)]
    simp [spansText_append, spansText, String.append_assoc, brace_nl_split]
  · simp only [renderAt, renderSpans, if_pos htf, flatText]
  · simp only [renderAt, renderSpans,
      if_neg (by omega : ¬ col + flatLen (.tuple (.cons x xr)) ≤ lineWidth)]
    simp [spansText_append, spansText, String.append_assoc, paren_nl_split]
  · simp only [renderAt, renderSpans, if_pos hcf, flatText]
  · simp only [renderAt, renderSpans,
      if_neg (by omega : ¬ col + flatLen (.tupleStruct n (.cons x xr)) ≤ lineWidth)]
    simp [spansText_append, spansText, String.append_assoc, paren_nl_split]
  · simp only [renderAt, renderSpans, if_pos hlf, flatText]
  · simp only [renderAt, renderSpans,
      if_neg (by omega : ¬ col + flatLen (.list (.cons x xr)) ≤ lineWidth)]
    simp [spansText_append, spansText, String.append_assoc, bracket_nl_split]

/-- Witness for the amended C2 at the 60/61 boundary: a struct whose
candidate is exactly 60 columns stays on one line; with one more column it
breaks into the multi-line form. -/
theorem c2_width_threshold_amended_witness :
    renderAt 0 0 (.namedStruct "Demo" (.cons "foo" (.atom "aaaaaaaaaaaaaaaaaaaaaaaaaaaaaaaaaaaaaaaaaaaaaa") .nil)) =
      flatText (.namedStruct "Demo" (.cons "foo" (.atom "aaaaaaaaaaaaaaaaaaaaaaaaaaaaaaaaaaaaaaaaaaaaaa") .nil)) ∧
    renderAt 0 0 (.namedStruct "Demo" (.cons "foo" (.atom "aaaaaaaaaaaaaaaaaaaaaaaaaaaaaaaaaaaaaaaaaaaaaaa") .nil)) =
      "Demo" ++ " \x7b\n" ++
        spansText (multiFields (0 + indentStep) (.cons "foo" (.atom "aaaaaaaaaaaaaaaaaaaaaaaaaaaaaaaaaaaaaaaaaaaaaaa") .nil)) ++
        sp 0 ++ "\x7d" :=
  ⟨(c2_width_threshold_amended 0 0 "Demo" "foo" (.atom "aaaaaaaaaaaaaaaaaaaaaaaaaaaaaaaaaaaaaaaaaaaaaa") .nil (.atom "x") .nil).1.1
      (by decide),
   (c2_width_threshold_amended 0 0 "Demo" "foo" (.atom "aaaaaaaaaaaaaaaaaaaaaaaaaaaaaaaaaaaaaaaaaaaaaaa") .nil (.atom "x") .nil).1.2
      (by decide)⟩

/-- C4 counterexample: the two-entry map of the `debug_map` doc-test in
`src/lib.rs` has a single-line candidate of 32 columns — well within any
budget — yet it renders in multi-line form, exactly as the doc-test
asserts; the single-line map form of the claim is never emitted. -/
theorem c4_map_singleline_counterexample :
    flatLen mapHW = 32 ∧
    flatLen mapHW ≤ 80 ∧
    flatText mapHW = "\x7b[\"Hello\"] = 5; [\"World\"] = 10;\x7d" ∧
    renderNode mapHW ≠ flatText mapHW ∧
    renderNode mapHW = "\x7b\n    [\"Hello\"] = 5;\n    [\"World\"] = 10;\n\x7d" :=
  ⟨rfl, by decide, rfl, by decide, rfl⟩

/-- C4 amended: every map entry renders as `[key] = value`, entries are
separated by `;`, and a trailing `;` follows the last entry; however a
nonempty map node always renders in multi-line form (the single-line map
form is never emitted), so the trailing-`;`-after-the-last-entry rule is
realized in the multi-line form — and holds of the never-emitted
single-line candidate as well. -/
theorem c4_map_trailing_semicolon_amended (ind col : Nat) (k v : String)
    (es : List (String × String))
    (hes : ∀ p ∈ (k, v) :: es, '\n' ∉ p.1.data ∧ '\n' ∉ p.2.data)
    (hfit : ∀ p ∈ (k, v) :: es,
      (ind + indentStep) + (p.1.length + p.2.length + 6) ≤ lineWidth) :
    strLines (renderAt ind col (.map (atomsE ((k, v) :: es)))) =
      "\x7b" ::
        ((k, v) :: es).map (fun p => sp (ind + indentStep) ++ "[" ++ p.1 ++ "] = " ++ p.2 ++ ";") ++
        [sp ind ++ "\x7d"] ∧
    flatText (.map (atomsE ((k, v) :: es))) =
      "\x7b" ++ joinSep " " (((k, v) :: es).map fun p => "[" ++ p.1 ++ "] = " ++ p.2 ++ ";") ++
        "\x7d" :=
  ⟨lines_render_map ind col k v es hes hfit, flatText_map_atoms k v es⟩

/-- Witness for the amended C4 at the entries of the `debug_map` doc-test:
both rendered entry lines, including the last, end with `;`. -/
theorem c4_map_trailing_semicolon_amended_witness :
    strLines (renderAt 0 0 (.map (atomsE (("\"Hello\"", "5") :: [("\"World\"", "10")])))) =
      "\x7b" ::
        ((("\"Hello\"", "5") :: [("\"World\"", "10")]).map
          (fun p => sp (0 + indentStep) ++ "[" ++ p.1 ++ "] = " ++ p.2 ++ ";")) ++
        [sp 0 ++ "\x7d"] :=
  (c4_map_trailing_semicolon_amended 0 0 "\"Hello\"" "5" [("\"World\"", "10")]
    (by decide) (by decide)).1

/-- C6: stripping all highlight markers from the colored renderer's output
yields exactly the plain renderer's output, for every value whose visible
text contains no raw escape character (both renderers emit the same span
sequence, so their line-breaking decisions coincide by construction and
width is measured on visible text). -/
theorem c6_color_strip_agreement (v : Val) (h : esc ∉ (render_plain v).data) :
    stripAnsi (render_colored v) = render_plain v :=
  strip_spans (renderSpans 0 0 (Formatter.process v)) h

/-- Witness for C6 at the `debug_struct_big` tree. -/
theorem c6_color_strip_agreement_witness :
    stripAnsi (render_colored (fun _ => demoBig)) = render_plain (fun _ => demoBig) :=
  c6_color_strip_agreement (fun _ => demoBig) (by decide)

/-- C1: in multi-line form, the plain renderer terminates each child line
with the shape's separator including the last child — `,` for struct,
tuple, tuple-struct and list children, `;` for map entries — except that a
multi-line set omits the separator after its final element only.  Stated
for composites with atomic (single-line) children, whose rendered lines
are then characterized completely. -/
theorem c1_trailing_separators_multiline
    (ind col : Nat) (name : String)
    (f t : String) (fs : List (String × String))
    (t0 : String) (ts : List String)
    (k v : String) (es : List (String × String))
    (us : List String) (lastT : String)
    (hname : '\n' ∉ name.data)
    (hfs : ∀ p ∈ (f, t) :: fs, '\n' ∉ p.1.data ∧ '\n' ∉ p.2.data)
    (hts : ∀ u ∈ t0 :: ts, '\n' ∉ u.data)
    (hes : ∀ p ∈ (k, v) :: es, '\n' ∉ p.1.data ∧ '\n' ∉ p.2.data)
    (hus : ∀ u ∈ us ++ [lastT], '\n' ∉ u.data)
    (hwS : lineWidth < col + flatLen (.namedStruct name (atomsF ((f, t) :: fs))))
    (hwT : lineWidth < col + flatLen (.tuple (atomsN (t0 :: ts))))
    (hwTS : lineWidth < col + flatLen (.tupleStruct name (atomsN (t0 :: ts))))
    (hwL : lineWidth < col + flatLen (.list (atomsN (t0 :: ts))))
    (hfit : ∀ p ∈ (k, v) :: es,
      (ind + indentStep) + (p.1.length + p.2.length + 6) ≤ lineWidth) :
    strLines (renderAt ind col (.namedStruct name (atomsF ((f, t) :: fs)))) =
      (name ++ " \x7b") ::
        ((f, t) :: fs).map (fun p => sp (ind + indentStep) ++ p.1 ++ ": " ++ p.2 ++ ",") ++
        [sp ind ++ "\x7d"] ∧
    strLines (renderAt ind col (.tuple (atomsN (t0 :: ts)))) =
      "(" :: (t0 :: ts).map (fun u => sp (ind + indentStep) ++ u ++ ",") ++ [sp ind ++ ")"] ∧
    strLines (renderAt ind col (.tupleStruct name (atomsN (t0 :: ts)))) =
      (name ++ "(") :: (t0 :: ts).map (fun u => sp (ind + indentStep) ++ u ++ ",") ++
        [sp ind ++ ")"] ∧
    strLines (renderAt ind col (.list (atomsN (t0 :: ts)))) =
      "[" :: (t0 :: ts).map (fun u => sp (ind + indentStep) ++ u ++ ",") ++ [sp ind ++ "]"] ∧
    strLines (renderAt ind col (.map (atomsE ((k, v) :: es)))) =
      "\x7b" ::
        ((k, v) :: es).map (fun p => sp (ind + indentStep) ++ "[" ++ p.1 ++ "] = " ++ p.2 ++ ";") ++
        [sp ind ++ "\x7d"] ∧
    strLines (renderAt ind col (.set (atomsN (us ++ [lastT])))) =
      "\x7b" :: us.map (fun u => sp (ind + indentStep) ++ u ++ ";") ++
        [sp (ind + indentStep) ++ lastT, sp ind ++ "\x7d"] :=
  ⟨lines_render_struct ind col name f t fs hname hfs hwS,
   lines_render_tuple ind col t0 ts hts hwT,
   lines_render_tupleStruct ind col name t0 ts hname hts hwTS,
   lines_render_list ind col t0 ts hts hwL,
   lines_render_map ind col k v es hes hfit,
   lines_render_set ind col us lastT hus⟩

/-- Witness for C1 at concrete over-wide composites: a 47-column field
value and a 61-column item force multi-line form; the set holds `69` and
`420`. -/
theorem c1_trailing_separators_multiline_witness :
    strLines (renderAt 0 0 (.namedStruct "Demo" (atomsF (("foo", "aaaaaaaaaaaaaaaaaaaaaaaaaaaaaaaaaaaaaaaaaaaaaaa") :: [])))) =
      ("Demo" ++ " \x7b") ::
        ((("foo", "aaaaaaaaaaaaaaaaaaaaaaaaaaaaaaaaaaaaaaaaaaaaaaa") :: []).map
          (fun p => sp (0 + indentStep) ++ p.1 ++ ": " ++ p.2 ++ ",")) ++
        [sp 0 ++ "\x7d"] ∧
    strLines (renderAt 0 0 (.tuple (atomsN ("bbbbbbbbbbbbbbbbbbbbbbbbbbbbbbbbbbbbbbbbbbbbbbbbbbbbbbbbbbbbb" :: [])))) =
      "(" :: (("bbbbbbbbbbbbbbbbbbbbbbbbbbbbbbbbbbbbbbbbbbbbbbbbbbbbbbbbbbbbb" :: []).map (fun u => sp (0 + indentStep) ++ u ++ ",")) ++ [sp 0 ++ ")"] ∧
    strLines (renderAt 0 0 (.tupleStruct "Demo" (atomsN ("bbbbbbbbbbbbbbbbbbbbbbbbbbbbbbbbbbbbbbbbbbbbbbbbbbbbbbbbbbbbb" :: [])))) =
      ("Demo" ++ "(") :: (("bbbbbbbbbbbbbbbbbbbbbbbbbbbbbbbbbbbbbbbbbbbbbbbbbbbbbbbbbbbbb" :: []).map (fun u => sp (0 + indentStep) ++ u ++ ",")) ++
        [sp 0 ++ ")"] ∧
    strLines (renderAt 0 0 (.list (atomsN ("bbbbbbbbbbbbbbbbbbbbbbbbbbbbbbbbbbbbbbbbbbbbbbbbbbbbbbbbbbbbb" :: [])))) =
      "[" :: (("bbbbbbbbbbbbbbbbbbbbbbbbbbbbbbbbbbbbbbbbbbbbbbbbbbbbbbbbbbbbb" :: []).map (fun u => sp (0 + indentStep) ++ u ++ ",")) ++ [sp 0 ++ "]"] ∧
    strLines (renderAt 0 0 (.map (atomsE (("\"hello\"", "60") :: [])))) =
      "\x7b" ::
        ((("\"hello\"", "60") :: []).map
          (fun p => sp (0 + indentStep) ++ "[" ++ p.1 ++ "] = " ++ p.2 ++ ";")) ++
        [sp 0 ++ "\x7d"] ∧
    strLines (renderAt 0 0 (.set (atomsN (["69"] ++ ["420"])))) =
      "\x7b" :: (["69"].map (fun u => sp (0 + indentStep) ++ u ++ ";")) ++
        [sp (0 + indentStep) ++ "420", sp 0 ++ "\x7d"] :=
  c1_trailing_separators_multiline 0 0 "Demo" "foo" "aaaaaaaaaaaaaaaaaaaaaaaaaaaaaaaaaaaaaaaaaaaaaaa" [] "bbbbbbbbbbbbbbbbbbbbbbbbbbbbbbbbbbbbbbbbbbbbbbbbbbbbbbbbbbbbb" []
    "\"hello\"" "60" [] ["69"] "420"
    (by decide) (by decide) (by decide) (by decide) (by decide)
    (by decide) (by decide) (by decide) (by decide) (by decide)

/-- C5: struct fields, tuple positions, list items and map/set entries
appear in exactly the order the builders received them — each builder
commits its children in insertion order, and the rendered single-line
forms list the children's texts joined left to right in that same order. -/
theorem c5_order_preservation (n f t t0 k v : String) (fsv : List (String × Val))
    (vs : List Val) (ps : List (Val × Val)) (fs : List (String × String))
    (ts : List String) (es : List (String × String)) :
    ((fsv.foldl (fun a p => a.field p.1 p.2) (Formatter.debug_struct n)).finish =
      Node.namedStruct n (Fields.ofList (fsv.map fun p => (p.1, Formatter.process p.2)))) ∧
    ((vs.foldl DebugTuple.field Formatter.debug_tuple).finish =
      Node.tuple (Nodes.ofList (vs.map Formatter.process))) ∧
    ((vs.foldl DebugTupleStruct.field (Formatter.debug_tuple_struct n)).finish =
      Node.tupleStruct n (Nodes.ofList (vs.map Formatter.process))) ∧
    ((Formatter.debug_list.entries vs).finish =
      Node.list (Nodes.ofList (vs.map Formatter.process))) ∧
    ((Formatter.debug_set.entries vs).finish =
      Node.set (Nodes.ofList (vs.map Formatter.process))) ∧
    ((Formatter.debug_map.entriesAll ps).finish =
      Node.map (Entries.ofList (ps.map fun p => (Formatter.process p.1, Formatter.process p.2)))) ∧
    flatText (.list (atomsN ts)) = "[" ++ joinSep ", " ts ++ "]" ∧
    flatText (.tuple (atomsN ts)) = "(" ++ joinSep ", " ts ++ ")" ∧
    flatText (.tupleStruct n (atomsN ts)) = n ++ "(" ++ joinSep ", " ts ++ ")" ∧
    flatText (.set (atomsN (t0 :: ts))) = "\x7b" ++ joinSep "; " (t0 :: ts) ++ "\x7d" ∧
    flatText (.namedStruct n (atomsF ((f, t) :: fs))) =
      n ++ " \x7b " ++ joinSep ", " (((f, t) :: fs).map fun p => p.1 ++ ": " ++ p.2) ++ " \x7d" ∧
    flatText (.map (atomsE ((k, v) :: es))) =
      "\x7b" ++ joinSep " " (((k, v) :: es).map fun p => "[" ++ p.1 ++ "] = " ++ p.2 ++ ";") ++
        "\x7d" := by
  refine ⟨?_, ?_, ?_, ?_, ?_, ?_, flatText_list_atoms ts, flatText_tuple_atoms ts,
    flatText_tupleStruct_atoms n ts, flatText_set_atoms t0 ts, flatText_struct_atoms n f t fs,
    flatText_map_atoms k v es⟩
  · rw [DebugStruct.finish, DebugStruct_foldl_fields, DebugStruct_foldl_name]
    simp [Formatter.debug_struct]
  · rw [DebugTuple.finish, DebugTuple_foldl_fields]
    simp [Formatter.debug_tuple]
  · rw [DebugTupleStruct.finish, DebugTupleStruct_foldl_fields, DebugTupleStruct_foldl_name]
    simp [Formatter.debug_tuple_struct]
  · rw [DebugList.finish, DebugList_entries_items]
    simp [Formatter.debug_list]
  · rw [DebugSet.finish, DebugSet_entries_items]
    simp [Formatter.debug_set]
  · rw [DebugMap.finish, DebugMap_entriesAll_entries]
    simp [Formatter.debug_map]

end DbgPls